import Mathlib

/-!
Shallow embedding of the Octaskly dispatcher/worker core (a small distributed
task coordinator written in Rust) and proofs about its behavior.

Each Rust method that mutates state behind a lock is embedded as a pure Lean
function that takes the state and returns the updated state.  The registry of
workers is a list (the source uses a Vec protected by a readers-writer lock),
the task queue is a list whose head is the front of the VecDeque, and the
result map is an association list with the insert-or-overwrite semantics of
HashMap::insert.  Wall-clock sampling, uuid generation and network and child
process effects are passed in as explicit parameters.
-/

namespace Octaskly

/-- Task status enumeration from src/protocol/mod.rs. -/
inductive TaskStatus where
  | Pending
  | Running
  | Completed
  | Failed
  | Cancelled
  | TimedOut
deriving DecidableEq

/-- A compute task, from struct Task in src/protocol/mod.rs.  The env HashMap
is embedded as an association list; timeout is the u64 seconds field. -/
structure Task where
  id : String
  command : String
  inputs : List String
  outputs : List String
  timeout : Nat
  env : List (String × String)
  created_at : Int
deriving DecidableEq

/-- Result of a task execution, from struct TaskResult in src/protocol/mod.rs. -/
structure TaskResult where
  task_id : String
  worker_id : String
  status : TaskStatus
  stdout : String
  stderr : String
  exit_code : Option Int
  duration_ms : Nat
  completed_at : Int
deriving DecidableEq

/-- Worker information, from struct WorkerInfo in src/protocol/mod.rs. -/
structure WorkerInfo where
  id : String
  name : String
  address : String
  port : Nat
  max_jobs : Nat
  current_jobs : Nat
  allow_shell : Bool
  last_heartbeat : Int
  platform : String
deriving DecidableEq

/-- A worker is idle when it is below capacity, from WorkerInfo::is_idle. -/
def WorkerInfo.is_idle (w : WorkerInfo) : Bool :=
  decide (w.current_jobs < w.max_jobs)

/-- The scheduler state: the task queue (front of the VecDeque is the list
head) and the worker registry Vec, from struct Scheduler in
src/scheduler/mod.rs. -/
structure Scheduler where
  queue : List Task
  workers : List WorkerInfo
deriving DecidableEq

/-- Replace the first list entry whose id equals wid, embedding the
iter().position followed by an indexed assignment in
Scheduler::update_worker; entries with other ids are untouched and a missing
id is a no-op. -/
def updateFirst (wid : String) (w2 : WorkerInfo) : List WorkerInfo → List WorkerInfo
  | [] => []
  | w :: ws => if w.id = wid then w2 :: ws else w :: updateFirst wid w2 ws

/-- Decrement current_jobs of the first entry whose id equals wid, clamped at
zero, embedding the iter_mut().find body of Scheduler::worker_job_completed. -/
def decFirst (wid : String) : List WorkerInfo → List WorkerInfo
  | [] => []
  | w :: ws =>
    if w.id = wid then
      (if 0 < w.current_jobs then { w with current_jobs := w.current_jobs - 1 } else w) :: ws
    else
      w :: decFirst wid ws

/-- Scheduler::enqueue pushes the task at the back of the VecDeque. -/
def Scheduler.enqueue (s : Scheduler) (t : Task) : Scheduler :=
  { s with queue := s.queue ++ [t] }

/-- Scheduler::dequeue pops the front of the VecDeque, returning none on an
empty queue. -/
def Scheduler.dequeue (s : Scheduler) : Option Task × Scheduler :=
  match s.queue with
  | [] => (none, s)
  | t :: rest => (some t, { s with queue := rest })

/-- Scheduler::queue_size. -/
def Scheduler.queue_size (s : Scheduler) : Nat :=
  s.queue.length

/-- Scheduler::register_worker pushes the worker onto the registry Vec. -/
def Scheduler.register_worker (s : Scheduler) (w : WorkerInfo) : Scheduler :=
  { s with workers := s.workers ++ [w] }

/-- Scheduler::update_worker replaces the entry at the position of the first
id match, and does nothing when the id is absent. -/
def Scheduler.update_worker (s : Scheduler) (worker_id : String) (w : WorkerInfo) : Scheduler :=
  { s with workers := updateFirst worker_id w s.workers }

/-- Scheduler::worker_job_completed decrements current_jobs of the first
worker with the given id, only when it is positive. -/
def Scheduler.worker_job_completed (s : Scheduler) (worker_id : String) : Scheduler :=
  { s with workers := decFirst worker_id s.workers }

/-- Scheduler::get_idle_worker returns a clone of the first registry entry
with current_jobs below max_jobs. -/
def Scheduler.get_idle_worker (s : Scheduler) : Option WorkerInfo :=
  s.workers.find? WorkerInfo.is_idle

/-- Scheduler::cleanup_offline_workers retains exactly the workers whose
heartbeat age is strictly below the timeout.  The source samples now from the
local clock at the start of the call; here it is an explicit parameter. -/
def Scheduler.cleanup_offline_workers (s : Scheduler) (now : Int)
    (heartbeat_timeout_secs : Int) : Scheduler :=
  { s with workers :=
      s.workers.filter (fun w => decide (now - w.last_heartbeat < heartbeat_timeout_secs)) }

/-- Scheduler::schedule_next_task dequeues the head task; if an idle worker
exists it increments a clone's current_jobs, writes the clone back with
update_worker and returns the pair, otherwise it re-enqueues the task at the
tail.  The returned worker already carries the incremented count, exactly as
the returned clone does in the source. -/
def Scheduler.schedule_next_task (s : Scheduler) : Option (Task × WorkerInfo) × Scheduler :=
  match s.dequeue with
  | (some task, s1) =>
    match s1.get_idle_worker with
    | some worker =>
      let w2 := { worker with current_jobs := worker.current_jobs + 1 }
      (some (task, w2), s1.update_worker w2.id w2)
    | none => (none, s1.enqueue task)
  | (none, s1) => (none, s1)

/-- Observable outcome of one iteration of the dispatcher scheduler loop in
run_dispatcher (src/main.rs): the scheduler state afterwards, the entry
inserted into the active_tasks map, and the task carried by the AssignTask
message handed to Transport::send_message, none when no send was attempted. -/
structure TickResult where
  sched : Scheduler
  assigned : Option (String × String)
  sent_assign : Option Task
deriving DecidableEq

/-- One iteration of the scheduler loop in run_dispatcher (src/main.rs).
After schedule_next_task returns a pair, the loop inserts the task into
active_tasks, increments the returned worker clone's current_jobs a second
time and writes it back, then formats address and port; parseOk tells whether
that string parses as a socket address and sendOk whether send_message
succeeds.  On send failure the task is re-enqueued; on parse failure nothing
further happens. -/
def run_dispatcher_tick (s : Scheduler) (parseOk : Bool) (sendOk : Bool) : TickResult :=
  match s.schedule_next_task with
  | (some (task, worker), s1) =>
    let w2 := { worker with current_jobs := worker.current_jobs + 1 }
    let s2 := s1.update_worker w2.id w2
    if parseOk then
      if sendOk then
        { sched := s2, assigned := some (task.id, worker.id), sent_assign := some task }
      else
        { sched := s2.enqueue task, assigned := some (task.id, worker.id),
          sent_assign := some task }
    else
      { sched := s2, assigned := some (task.id, worker.id), sent_assign := none }
  | (none, s1) => { sched := s1, assigned := none, sent_assign := none }

/-- The task execution engine, from struct Executor in src/executor/mod.rs. -/
structure Executor where
  workdir : String
  allow_shell : Bool
deriving DecidableEq

/-- Result structure returned after task execution, from struct
ExecutionResult in src/executor/mod.rs. -/
structure ExecutionResult where
  task_id : String
  status : TaskStatus
  stdout : String
  stderr : String
  exit_code : Option Int
  duration_ms : Nat
deriving DecidableEq

/-- Observable behavior of the spawned child process for one execution: its
exit code as reported by wait (none when unknown), the captured streams, and
the wall-clock milliseconds the whole execution took.  This packages the
runtime effects of Command::spawn, the pipe reads and wait in
Executor::execute so the control flow of the executor can be stated purely. -/
structure ChildRun where
  exit_code : Option Int
  stdout : String
  stderr : String
  elapsed_ms : Nat
deriving DecidableEq

/-- Executor::execute: fails immediately when shell execution is not allowed,
otherwise classifies the child's exit code, Completed exactly on exit code
zero and Failed on any other or unknown code, capturing the streams and the
elapsed time. -/
def Executor.execute (e : Executor) (task : Task) (run : ChildRun) :
    Except String ExecutionResult :=
  if !e.allow_shell then
    Except.error "Shell execution is not allowed"
  else
    Except.ok
      { task_id := task.id,
        status := if run.exit_code = some 0 then TaskStatus.Completed else TaskStatus.Failed,
        stdout := run.stdout,
        stderr := run.stderr,
        exit_code := run.exit_code,
        duration_ms := run.elapsed_ms }

/-- Executor::execute_with_timeout races execute against a timer of timeout
seconds.  The permission check in execute completes on the very first poll,
so its error wins the race even against a zero timer; otherwise the execute
future wins exactly when the child run finishes strictly within the timer,
and on expiry a synthetic TimedOut result is produced with empty stdout, the
timeout message in stderr, no exit code, and duration timeout times 1000. -/
def Executor.execute_with_timeout (e : Executor) (task : Task) (run : ChildRun) :
    Except String ExecutionResult :=
  if !e.allow_shell then
    Except.error "Shell execution is not allowed"
  else if run.elapsed_ms < task.timeout * 1000 then
    e.execute task run
  else
    Except.ok
      { task_id := task.id,
        status := TaskStatus.TimedOut,
        stdout := "",
        stderr := "Task timed out after " ++ toString task.timeout ++ " seconds",
        exit_code := none,
        duration_ms := task.timeout * 1000 }

/-- Substring test on character lists: the pattern occurs as a prefix here or
somewhere in the tail.  This embeds the str::contains call used by
Executor::validate_command. -/
def containsSub (pat : List Char) : List Char → Bool
  | [] => pat.isEmpty
  | c :: rest => pat.isPrefixOf (c :: rest) || containsSub pat rest

/-- Substring test on strings, hay contains pat. -/
def strContains (hay pat : String) : Bool :=
  containsSub pat.data hay.data

/-- The hardcoded dangerous patterns of Executor::validate_command. -/
def dangerous_patterns : List String :=
  ["rm -rf /", "dd if=/dev/zero", ":()\x7b:|:&\x7d;:"]

/-- Executor::validate_command: false when shell execution is disabled, false
when the command contains any dangerous pattern, true otherwise. -/
def Executor.validate_command (e : Executor) (command : String) : Bool :=
  if !e.allow_shell then
    false
  else if dangerous_patterns.any (fun p => strContains command p) then
    false
  else
    true

/-- Insert-or-overwrite on an association list, embedding HashMap::insert as
used by DispatcherState::store_result: an existing binding of the key is
replaced in place, otherwise the binding is appended. -/
def mapInsert (k : String) (v : TaskResult) :
    List (String × TaskResult) → List (String × TaskResult)
  | [] => [(k, v)]
  | (k1, v1) :: rest => if k1 = k then (k, v) :: rest else (k1, v1) :: mapInsert k v rest

/-- Lookup on the association list, embedding HashMap::get. -/
def mapGet (k : String) : List (String × TaskResult) → Option TaskResult
  | [] => none
  | (k1, v1) :: rest => if k1 = k then some v1 else mapGet k rest

/-- Dispatcher state, from struct DispatcherState in src/state/mod.rs; the
task_results HashMap is embedded as an association list. -/
structure DispatcherState where
  id : String
  name : String
  port : Nat
  task_results : List (String × TaskResult)
  completed_tasks : List Task
deriving DecidableEq

/-- DispatcherState::store_result inserts the result keyed by its task_id. -/
def DispatcherState.store_result (st : DispatcherState) (r : TaskResult) : DispatcherState :=
  { st with task_results := mapInsert r.task_id r st.task_results }

/-- DispatcherState::get_result. -/
def DispatcherState.get_result (st : DispatcherState) (task_id : String) : Option TaskResult :=
  mapGet task_id st.task_results

/-- DispatcherState::get_history_count is the size of the result map. -/
def DispatcherState.get_history_count (st : DispatcherState) : Nat :=
  st.task_results.length

/-- The TaskCompleted arm of handle_dispatcher_message in src/main.rs: store
the result in the dispatcher state, then decrement current_jobs of the worker
named by the result. -/
def handle_task_completed (st : DispatcherState) (s : Scheduler) (r : TaskResult) :
    DispatcherState × Scheduler :=
  (st.store_result r, s.worker_job_completed r.worker_id)

/-- The TaskResult built by the AssignTask arm of handle_worker_message in
src/main.rs after the executor returns: every field is copied from the
execution result except worker_id, which is the literal string unknown, and
completed_at, which samples the clock (a parameter here). -/
def mk_worker_task_result (task_id : String) (result : ExecutionResult) (now : Int) :
    TaskResult :=
  { task_id := task_id,
    worker_id := "unknown",
    status := result.status,
    stdout := result.stdout,
    stderr := result.stderr,
    exit_code := result.exit_code,
    duration_ms := result.duration_ms,
    completed_at := now }

/-- The CancelTask arm of handle_worker_message in src/main.rs: the handler
logs the requested task_id and calls set_current_task(None) without comparing
the id against the task occupying the slot. -/
def handle_worker_cancel (_current : Option Task) (_task_id : String) : Option Task :=
  none

/-- Drain a scheduler by repeated dequeue, recording the tasks in the order
they come out; the fuel bounds the number of dequeues. -/
def drainQueue : Nat → Scheduler → List Task
  | 0, _ => []
  | Nat.succ n, s =>
    match s.dequeue with
    | (some t, s1) => t :: drainQueue n s1
    | (none, _) => []

/-- Enqueue a list of tasks in order. -/
def enqueueAll (s : Scheduler) (ts : List Task) : Scheduler :=
  ts.foldl Scheduler.enqueue s

/-- A concrete worker with capacity one and no running jobs. -/
def w1ex : WorkerInfo :=
  { id := "w1", name := "alpha", address := "127.0.0.1", port := 7879, max_jobs := 1,
    current_jobs := 0, allow_shell := true, last_heartbeat := 0, platform := "linux" }

/-- A concrete task. -/
def t1ex : Task :=
  { id := "t1", command := "echo hi", inputs := [], outputs := [], timeout := 600,
    env := [], created_at := 0 }

/-- A scheduler holding one queued task and one idle worker. -/
def s1ex : Scheduler :=
  { queue := [t1ex], workers := [w1ex] }

/-- A concrete task occupying a worker slot. -/
def taskAex : Task :=
  { id := "task-a", command := "sleep 60", inputs := [], outputs := [], timeout := 600,
    env := [], created_at := 0 }

/-- An executor with shell execution enabled. -/
def exOn : Executor :=
  { workdir := "./work", allow_shell := true }

/-- An executor with shell execution disabled. -/
def exOff : Executor :=
  { workdir := "./work", allow_shell := false }

/-- A task with a one second timeout, as in the spec scenario. -/
def taskSleep : Task :=
  { id := "t-sleep", command := "sleep 10", inputs := [], outputs := [], timeout := 1,
    env := [], created_at := 0 }

/-- A child run that takes five seconds and never reports an exit code. -/
def runSlow : ChildRun :=
  { exit_code := none, stdout := "", stderr := "", elapsed_ms := 5000 }

/-- An empty dispatcher state. -/
def stEx : DispatcherState :=
  { id := "d1", name := "dispatcher", port := 7878, task_results := [], completed_tasks := [] }

/-- A concrete completion result for task-1. -/
def r1ex : TaskResult :=
  { task_id := "task-1", worker_id := "unknown", status := TaskStatus.Completed,
    stdout := "ok", stderr := "", exit_code := some 0, duration_ms := 5, completed_at := 0 }

/-- A second completion result for the same task id. -/
def r2ex : TaskResult :=
  { task_id := "task-1", worker_id := "unknown", status := TaskStatus.Failed,
    stdout := "", stderr := "boom", exit_code := some 1, duration_ms := 7, completed_at := 1 }

/-- Replacing a worker whose id equals the key leaves the list of registry
ids unchanged. -/
theorem updateFirst_map_id (wid : String) (w2 : WorkerInfo) (h : w2.id = wid) :
    ∀ ws : List WorkerInfo,
      (updateFirst wid w2 ws).map WorkerInfo.id = ws.map WorkerInfo.id := by
  intro ws
  induction ws with
  | nil => rfl
  | cons w rest ih =>
    by_cases hw : w.id = wid
    · simp [updateFirst, hw, h]
    · simp [updateFirst, hw, ih]

/-- Two successive replacements at the same id collapse to the last one,
provided the first replacement keeps the id. -/
theorem updateFirst_updateFirst (wid : String) (wa wb : WorkerInfo) (h : wa.id = wid) :
    ∀ ws : List WorkerInfo,
      updateFirst wid wb (updateFirst wid wa ws) = updateFirst wid wb ws := by
  intro ws
  induction ws with
  | nil => rfl
  | cons w rest ih =>
    by_cases hw : w.id = wid
    · simp [updateFirst, hw, h]
    · simp [updateFirst, hw, ih]

/-- Decrementing an id that appears nowhere in the registry is a no-op. -/
theorem decFirst_eq_self (wid : String) :
    ∀ ws : List WorkerInfo, (∀ w ∈ ws, ¬(w.id = wid)) → decFirst wid ws = ws := by
  intro ws
  induction ws with
  | nil => intro _; rfl
  | cons w rest ih =>
    intro h
    have hw : ¬(w.id = wid) := h w (List.mem_cons_self w rest)
    have hrest := ih (fun x hx => h x (List.mem_cons_of_mem w hx))
    simp [decFirst, hw, hrest]

/-- Looking up the key just inserted returns the inserted value. -/
theorem mapGet_mapInsert_self (k : String) (v : TaskResult) :
    ∀ m, mapGet k (mapInsert k v m) = some v := by
  intro m
  induction m with
  | nil => simp [mapInsert, mapGet]
  | cons p rest ih =>
    obtain ⟨k1, v1⟩ := p
    by_cases hk : k1 = k
    · simp [mapInsert, hk, mapGet]
    · simp [mapInsert, hk, mapGet, ih]

/-- Looking up any other key is unaffected by an insert. -/
theorem mapGet_mapInsert_ne (k k2 : String) (v : TaskResult) (h : ¬(k2 = k)) :
    ∀ m, mapGet k2 (mapInsert k v m) = mapGet k2 m := by
  intro m
  induction m with
  | nil =>
    have hk : ¬(k = k2) := fun he => h he.symm
    simp [mapInsert, mapGet, hk]
  | cons p rest ih =>
    obtain ⟨k1, v1⟩ := p
    by_cases hk : k1 = k
    · have hk2 : ¬(k = k2) := fun he => h he.symm
      simp [mapInsert, hk, mapGet, hk2]
    · simp [mapInsert, hk, mapGet, ih]

/-- Inserting at a key that is already bound keeps the map size. -/
theorem length_mapInsert_of_get (k : String) (v : TaskResult) :
    ∀ m, (mapGet k m).isSome = true → (mapInsert k v m).length = m.length := by
  intro m
  induction m with
  | nil => intro h; simp [mapGet] at h
  | cons p rest ih =>
    obtain ⟨k1, v1⟩ := p
    intro h
    by_cases hk : k1 = k
    · simp [mapInsert, hk]
    · simp [mapGet, hk] at h
      simp [mapInsert, hk, ih h]

/-- A key of the map after an insert is the inserted key or an original key. -/
theorem mem_keys_mapInsert (k x : String) (v : TaskResult) :
    ∀ m, x ∈ (mapInsert k v m).map Prod.fst → x = k ∨ x ∈ m.map Prod.fst := by
  intro m
  induction m with
  | nil =>
    intro h
    simp only [mapInsert, List.map_cons, List.map_nil, List.mem_singleton] at h
    exact Or.inl h
  | cons p rest ih =>
    obtain ⟨k1, v1⟩ := p
    intro h
    by_cases hk : k1 = k
    · rw [show mapInsert k v ((k1, v1) :: rest) = (k, v) :: rest from by simp [mapInsert, hk]] at h
      rw [List.map_cons, List.mem_cons] at h
      rcases h with h | h
      · exact Or.inl h
      · exact Or.inr (by rw [List.map_cons, List.mem_cons]; exact Or.inr h)
    · rw [show mapInsert k v ((k1, v1) :: rest) = (k1, v1) :: mapInsert k v rest from by
        simp [mapInsert, hk]] at h
      rw [List.map_cons, List.mem_cons] at h
      rcases h with h | h
      · exact Or.inr (by rw [List.map_cons, List.mem_cons]; exact Or.inl h)
      · rcases ih h with h2 | h2
        · exact Or.inl h2
        · exact Or.inr (by rw [List.map_cons, List.mem_cons]; exact Or.inr h2)

/-- Insert-or-overwrite preserves distinctness of the keys. -/
theorem nodup_keys_mapInsert (k : String) (v : TaskResult) :
    ∀ m, (m.map Prod.fst).Nodup → ((mapInsert k v m).map Prod.fst).Nodup := by
  intro m
  induction m with
  | nil => intro _; simp [mapInsert]
  | cons p rest ih =>
    obtain ⟨k1, v1⟩ := p
    intro h
    rw [List.map_cons, List.nodup_cons] at h
    obtain ⟨hk1, hrest⟩ := h
    by_cases hk : k1 = k
    · rw [show mapInsert k v ((k1, v1) :: rest) = (k, v) :: rest from by simp [mapInsert, hk]]
      rw [List.map_cons, List.nodup_cons]
      exact ⟨hk ▸ hk1, hrest⟩
    · rw [show mapInsert k v ((k1, v1) :: rest) = (k1, v1) :: mapInsert k v rest from by
        simp [mapInsert, hk]]
      rw [List.map_cons, List.nodup_cons]
      refine ⟨fun hx => ?_, ih hrest⟩
      rcases mem_keys_mapInsert k k1 v rest hx with h2 | h2
      · exact hk h2
      · exact hk1 h2

/-- Draining a scheduler for as many steps as the queue is long yields
exactly the queue, in order. -/
theorem drainQueue_queue :
    ∀ (q : List Task) (ws : List WorkerInfo), drainQueue q.length ⟨q, ws⟩ = q := by
  intro q
  induction q with
  | nil => intro ws; rfl
  | cons t rest ih => intro ws; simp [drainQueue, Scheduler.dequeue, ih]

/-- Enqueueing a list of tasks appends them to the queue in order and leaves
the registry alone. -/
theorem enqueueAll_spec :
    ∀ (ts : List Task) (s : Scheduler),
      enqueueAll s ts = { queue := s.queue ++ ts, workers := s.workers } := by
  intro ts
  induction ts with
  | nil => intro s; cases s; simp [enqueueAll]
  | cons t rest ih =>
    intro s
    have h1 : enqueueAll s (t :: rest) = enqueueAll (s.enqueue t) rest := rfl
    rw [h1, ih]
    simp [Scheduler.enqueue]

/-- C1: at a registry holding one worker with max_jobs one and current_jobs
zero and a queue holding one task, a single tick whose address parse and send
both succeed sends the task yet leaves the worker at current_jobs two: the
count is incremented twice per successful dispatch, once in
schedule_next_task and once more in the dispatcher loop, so it exceeds
max_jobs, against the claimed single increment and the claimed bound. -/
theorem dispatch_double_increment :
    (run_dispatcher_tick s1ex true true).sent_assign = some t1ex ∧
    (run_dispatcher_tick s1ex true true).sched.workers.map WorkerInfo.current_jobs = [2] ∧
    w1ex.current_jobs = 0 ∧ w1ex.max_jobs = 1 ∧
    ∃ w ∈ (run_dispatcher_tick s1ex true true).sched.workers,
      w.max_jobs < w.current_jobs := by
  decide

/-- C2 counterexample: on a tick whose send fails, the task is re-enqueued
but the chosen worker's current_jobs is left at two, not decremented back to
its pre-dispatch value zero, refuting the claimed rollback. -/
theorem send_failure_no_rollback_cex :
    (run_dispatcher_tick s1ex true false).sched.queue = [t1ex] ∧
    ¬((run_dispatcher_tick s1ex true false).sched.workers.map WorkerInfo.current_jobs
        = [w1ex].map WorkerInfo.current_jobs) := by
  decide

/-- C2 amended: when the head task is dequeued, an idle worker is found, the
address parses and the send fails, the dispatcher re-enqueues the task at the
tail of the queue and does not remove the worker (the registry ids are
unchanged), but the worker's current_jobs is not rolled back: it keeps the
value incremented by two during the dispatch attempt. -/
theorem send_failure_requeues_without_rollback :
    ∀ (s : Scheduler) (t : Task) (q : List Task) (w : WorkerInfo),
      s.queue = t :: q →
      s.workers.find? WorkerInfo.is_idle = some w →
      run_dispatcher_tick s true false =
        { sched := { queue := q ++ [t],
                     workers := updateFirst w.id
                       { w with current_jobs := w.current_jobs + 2 } s.workers },
          assigned := some (t.id, w.id),
          sent_assign := some t } ∧
      (updateFirst w.id { w with current_jobs := w.current_jobs + 2 } s.workers).map
          WorkerInfo.id = s.workers.map WorkerInfo.id := by
  intro s t q w hq hw
  obtain ⟨qu, ws⟩ := s
  simp only [] at hq hw
  subst hq
  have key : updateFirst w.id { w with current_jobs := w.current_jobs + 1 + 1 }
      (updateFirst w.id { w with current_jobs := w.current_jobs + 1 } ws)
      = updateFirst w.id { w with current_jobs := w.current_jobs + 2 } ws :=
    updateFirst_updateFirst w.id { w with current_jobs := w.current_jobs + 1 }
      { w with current_jobs := w.current_jobs + 1 + 1 } rfl ws
  constructor
  · simp [run_dispatcher_tick, Scheduler.schedule_next_task, Scheduler.dequeue,
      Scheduler.get_idle_worker, hw, Scheduler.update_worker, Scheduler.enqueue, key]
  · exact updateFirst_map_id w.id { w with current_jobs := w.current_jobs + 2 } rfl ws

/-- C2 witness at the concrete one-worker scheduler. -/
theorem send_failure_requeues_without_rollback_witness :
    run_dispatcher_tick s1ex true false =
      { sched := { queue := [t1ex], workers := [{ w1ex with current_jobs := 2 }] },
        assigned := some ("t1", "w1"),
        sent_assign := some t1ex } :=
  (send_failure_requeues_without_rollback s1ex t1ex [] w1ex rfl (by decide)).1.trans
    (by decide)

/-- C10: when the head task is dequeued, an idle worker is found and the
worker's address and port string fails to parse as a socket address, the tick
hands nothing to the transport and does not re-enqueue the task: the task is
dropped (the queue is just the old tail) while the registry keeps the two
increments of the worker's current_jobs. -/
theorem parse_failure_drops_task :
    ∀ (s : Scheduler) (t : Task) (q : List Task) (w : WorkerInfo) (sendOk : Bool),
      s.queue = t :: q →
      s.workers.find? WorkerInfo.is_idle = some w →
      run_dispatcher_tick s false sendOk =
        { sched := { queue := q,
                     workers := updateFirst w.id
                       { w with current_jobs := w.current_jobs + 2 } s.workers },
          assigned := some (t.id, w.id),
          sent_assign := none } := by
  intro s t q w sendOk hq hw
  obtain ⟨qu, ws⟩ := s
  simp only [] at hq hw
  subst hq
  have key : updateFirst w.id { w with current_jobs := w.current_jobs + 1 + 1 }
      (updateFirst w.id { w with current_jobs := w.current_jobs + 1 } ws)
      = updateFirst w.id { w with current_jobs := w.current_jobs + 2 } ws :=
    updateFirst_updateFirst w.id { w with current_jobs := w.current_jobs + 1 }
      { w with current_jobs := w.current_jobs + 1 + 1 } rfl ws
  simp [run_dispatcher_tick, Scheduler.schedule_next_task, Scheduler.dequeue,
    Scheduler.get_idle_worker, hw, Scheduler.update_worker, key]

/-- C10 witness at the concrete one-worker scheduler. -/
theorem parse_failure_drops_task_witness :
    run_dispatcher_tick s1ex false true =
      { sched := { queue := [], workers := [{ w1ex with current_jobs := 2 }] },
        assigned := some ("t1", "w1"),
        sent_assign := none } :=
  (parse_failure_drops_task s1ex t1ex [] w1ex true rfl (by decide)).trans (by decide)

/-- C4 counterexample: a CancelTask whose task_id does not match the task in
the slot still clears the slot, refuting the claimed iff: the slot with
task-a is cleared by a cancel naming task-b. -/
theorem cancel_mismatch_clears_slot_cex :
    handle_worker_cancel (some taskAex) "task-b" = none ∧ ¬(taskAex.id = "task-b") := by
  exact ⟨rfl, by decide⟩

/-- C4 amended: on receiving CancelTask the worker clears its current-task
slot unconditionally, whatever the requested task_id and whatever task
occupies the slot. -/
theorem cancel_clears_slot_unconditionally :
    ∀ (current : Option Task) (task_id : String),
      handle_worker_cancel current task_id = none :=
  fun _ _ => rfl

/-- C6: cleanup_offline_workers keeps exactly the workers whose heartbeat age
is strictly below the timeout, that is, removes exactly those with age at
least the timeout; survivors are original entries in their original order (a
sublist), and running the reap twice with the same now and timeout equals
running it once. -/
theorem cleanup_offline_workers_spec :
    (∀ (s : Scheduler) (now T : Int) (w : WorkerInfo),
      w ∈ (s.cleanup_offline_workers now T).workers ↔
        w ∈ s.workers ∧ now - w.last_heartbeat < T) ∧
    (∀ (s : Scheduler) (now T : Int),
      List.Sublist (s.cleanup_offline_workers now T).workers s.workers) ∧
    (∀ (s : Scheduler) (now T : Int),
      (s.cleanup_offline_workers now T).cleanup_offline_workers now T =
        s.cleanup_offline_workers now T) := by
  refine ⟨fun s now T w => ?_, fun s now T => ?_, fun s now T => ?_⟩
  · simp [Scheduler.cleanup_offline_workers, List.mem_filter]
  · exact List.filter_sublist _
  · simp [Scheduler.cleanup_offline_workers, List.filter_filter]

/-- C8: the queue is FIFO.  Enqueue appends at the tail; dequeue on an empty
queue returns none without touching the state; draining a scheduler after
enqueueing the list ts returns the old queue followed by ts in enqueue
order; in particular enqueueing A then B dequeues A before B. -/
theorem queue_fifo_spec :
    (∀ (s : Scheduler) (t : Task), (s.enqueue t).queue = s.queue ++ [t]) ∧
    (∀ ws : List WorkerInfo,
      Scheduler.dequeue { queue := [], workers := ws } =
        (none, { queue := [], workers := ws })) ∧
    (∀ (s : Scheduler) (ts : List Task),
      drainQueue (s.queue.length + ts.length) (enqueueAll s ts) = s.queue ++ ts) ∧
    (∀ (s : Scheduler) (A B : Task),
      drainQueue (s.queue.length + 2) ((s.enqueue A).enqueue B) = s.queue ++ [A, B]) := by
  have h3 : ∀ (s : Scheduler) (ts : List Task),
      drainQueue (s.queue.length + ts.length) (enqueueAll s ts) = s.queue ++ ts := by
    intro s ts
    rw [enqueueAll_spec]
    have hlen : s.queue.length + ts.length = (s.queue ++ ts).length := by
      rw [List.length_append]
    rw [hlen]
    exact drainQueue_queue (s.queue ++ ts) s.workers
  exact ⟨fun s t => rfl, fun ws => rfl, h3, fun s A B => h3 s [A, B]⟩

/-- C3: the TaskResult the worker builds after execution always carries the
literal worker_id unknown, and when the dispatcher processes a TaskCompleted
whose worker_id is unknown against a registry containing no worker with that
id, the scheduler state, in particular every worker's current_jobs, is left
unchanged. -/
theorem task_completed_unknown_worker_noop :
    (∀ (tid : String) (res : ExecutionResult) (now : Int),
      (mk_worker_task_result tid res now).worker_id = "unknown") ∧
    (∀ (st : DispatcherState) (s : Scheduler) (r : TaskResult),
      r.worker_id = "unknown" →
      (∀ w ∈ s.workers, ¬(w.id = "unknown")) →
      (handle_task_completed st s r).2 = s) := by
  refine ⟨fun _ _ _ => rfl, fun st s r hr hw => ?_⟩
  show s.worker_job_completed r.worker_id = s
  rw [hr]
  show { s with workers := decFirst "unknown" s.workers } = s
  rw [decFirst_eq_self "unknown" s.workers hw]

/-- C3 witness: the concrete result r1ex names worker unknown, and handling
its completion against the registry holding only w1ex leaves the scheduler
untouched. -/
theorem task_completed_unknown_worker_noop_witness :
    (handle_task_completed stEx { queue := [], workers := [w1ex] } r1ex).2 =
      { queue := [], workers := [w1ex] } :=
  task_completed_unknown_worker_noop.2 stEx { queue := [], workers := [w1ex] } r1ex rfl
    (by decide)

/-- C9: the result store keeps at most one entry per task id.  Storing a
result makes it retrievable under its task_id; other ids are unaffected;
storing a second result with the same task id overwrites the first and
leaves the history count unchanged; and store_result preserves distinctness
of the stored keys, so a store built from the empty map holds at most one
entry per id. -/
theorem result_store_spec :
    (∀ (st : DispatcherState) (r : TaskResult),
      (st.store_result r).get_result r.task_id = some r) ∧
    (∀ (st : DispatcherState) (r : TaskResult) (k : String),
      ¬(k = r.task_id) → (st.store_result r).get_result k = st.get_result k) ∧
    (∀ (st : DispatcherState) (ra rb : TaskResult),
      rb.task_id = ra.task_id →
      ((st.store_result ra).store_result rb).get_history_count =
        (st.store_result ra).get_history_count) ∧
    (∀ (st : DispatcherState) (r : TaskResult),
      (st.task_results.map Prod.fst).Nodup →
      ((st.store_result r).task_results.map Prod.fst).Nodup) := by
  refine ⟨?_, ?_, ?_, ?_⟩
  · intro st r
    exact mapGet_mapInsert_self r.task_id r st.task_results
  · intro st r k hk
    exact mapGet_mapInsert_ne r.task_id k r hk st.task_results
  · intro st ra rb h
    have hm : (mapGet rb.task_id (mapInsert ra.task_id ra st.task_results)).isSome = true := by
      rw [h, mapGet_mapInsert_self]
      rfl
    exact length_mapInsert_of_get rb.task_id rb _ hm
  · intro st r h
    exact nodup_keys_mapInsert r.task_id r st.task_results h

/-- C9 witness: store r1ex then r2ex under the same id task-1 in the empty
store; the count stays one and the lookup returns the overwriting result. -/
theorem result_store_spec_witness :
    ((stEx.store_result r1ex).store_result r2ex).get_history_count = 1 ∧
    ((stEx.store_result r1ex).store_result r2ex).get_result "task-1" = some r2ex ∧
    (stEx.store_result r1ex).get_result "task-1" = some r1ex :=
  ⟨(result_store_spec.2.2.1 stEx r1ex r2ex rfl).trans (by decide),
   result_store_spec.1 (stEx.store_result r1ex) r2ex,
   result_store_spec.1 stEx r1ex⟩

/-- C5: with shell execution allowed, when the child run finishes strictly
within the timeout the executor returns a result whose status is Completed
exactly when the exit code is zero and Failed on any other or unknown code;
when the timeout elapses first it returns the synthetic TimedOut result with
no exit code, duration timeout times 1000, and a stderr that contains the
timed out after N seconds message; and a task with timeout zero yields
TimedOut. -/
theorem execute_with_timeout_spec :
    ∀ (e : Executor) (task : Task) (run : ChildRun), e.allow_shell = true →
      (run.elapsed_ms < task.timeout * 1000 →
        ∃ r, e.execute_with_timeout task run = Except.ok r ∧
          (r.status = TaskStatus.Completed ↔ run.exit_code = some 0) ∧
          (¬(run.exit_code = some 0) → r.status = TaskStatus.Failed)) ∧
      (task.timeout * 1000 ≤ run.elapsed_ms →
        e.execute_with_timeout task run = Except.ok
          { task_id := task.id, status := TaskStatus.TimedOut, stdout := "",
            stderr := "Task timed out after " ++ toString task.timeout ++ " seconds",
            exit_code := none, duration_ms := task.timeout * 1000 } ∧
        "Task timed out after " ++ toString task.timeout ++ " seconds" =
          "Task " ++ ("timed out after " ++ toString task.timeout ++ " seconds")) ∧
      (task.timeout = 0 →
        ∃ r, e.execute_with_timeout task run = Except.ok r ∧
          r.status = TaskStatus.TimedOut) := by
  intro e task run hshell
  have hns : (!e.allow_shell) = false := by rw [hshell]; rfl
  refine ⟨fun hlt => ?_, fun hge => ?_, fun h0 => ?_⟩
  · refine ⟨{ task_id := task.id
              status := if run.exit_code = some 0 then TaskStatus.Completed
                        else TaskStatus.Failed
              stdout := run.stdout
              stderr := run.stderr
              exit_code := run.exit_code
              duration_ms := run.elapsed_ms }, ?_, ?_, ?_⟩
    · simp [Executor.execute_with_timeout, Executor.execute, hns, hlt]
    · by_cases hc : run.exit_code = some 0
      · simp [hc]
      · simp [hc]
    · intro hc
      simp [hc]
  · have hnlt : ¬(run.elapsed_ms < task.timeout * 1000) := not_lt.mpr hge
    refine ⟨?_, ?_⟩
    · simp [Executor.execute_with_timeout, hns, hnlt]
    · rw [← String.append_assoc, ← String.append_assoc]
      rfl
  · have hnlt : ¬(run.elapsed_ms < task.timeout * 1000) := by
      rw [h0]
      simp
    refine ⟨{ task_id := task.id
              status := TaskStatus.TimedOut
              stdout := ""
              stderr := "Task timed out after " ++ toString task.timeout ++ " seconds"
              exit_code := none
              duration_ms := task.timeout * 1000 }, ?_, rfl⟩
    simp [Executor.execute_with_timeout, hns, hnlt]

/-- C5 witness: a five second child run against the one second timeout of
taskSleep produces exactly the synthetic TimedOut result. -/
theorem execute_with_timeout_spec_witness :
    exOn.execute_with_timeout taskSleep runSlow = Except.ok
      { task_id := "t-sleep", status := TaskStatus.TimedOut, stdout := "",
        stderr := "Task timed out after 1 seconds", exit_code := none,
        duration_ms := 1000 } :=
  ((execute_with_timeout_spec exOn taskSleep runSlow rfl).2.1 (by decide)).1

/-- C7: validate_command returns false whenever shell execution is disabled;
with it enabled, it returns false exactly when the command contains one of
the three dangerous literal patterns and true for every other command, in
particular any command avoiding all three patterns; and with shell execution
disabled, execute fails immediately with an error. -/
theorem validate_command_spec :
    (∀ (e : Executor) (cmd : String),
      e.allow_shell = false → e.validate_command cmd = false) ∧
    (∀ (e : Executor) (cmd : String), e.allow_shell = true →
      (e.validate_command cmd = false ↔
        ∃ p ∈ dangerous_patterns, strContains cmd p = true)) ∧
    (∀ (e : Executor) (cmd : String), e.allow_shell = true →
      (∀ p ∈ dangerous_patterns, ¬(strContains cmd p = true)) →
      e.validate_command cmd = true) ∧
    (∀ (e : Executor) (task : Task) (run : ChildRun), e.allow_shell = false →
      e.execute task run = Except.error "Shell execution is not allowed") := by
  have hb : ∀ (e : Executor) (cmd : String), e.allow_shell = true →
      (e.validate_command cmd = false ↔
        ∃ p ∈ dangerous_patterns, strContains cmd p = true) := by
    intro e cmd h
    have hns : (!e.allow_shell) = false := by rw [h]; rfl
    cases hany : dangerous_patterns.any (fun p => strContains cmd p) with
    | true =>
      have hv : e.validate_command cmd = false := by
        simp [Executor.validate_command, hns, hany]
      rw [hv]
      constructor
      · intro _
        exact List.any_eq_true.mp hany
      · intro _
        rfl
    | false =>
      have hv : e.validate_command cmd = true := by
        simp [Executor.validate_command, hns, hany]
      rw [hv]
      constructor
      · intro hc
        simp at hc
      · intro he
        have hx := List.any_eq_true.mpr he
        rw [hany] at hx
        simp at hx
  refine ⟨?_, hb, ?_, ?_⟩
  · intro e cmd h
    simp [Executor.validate_command, h]
  · intro e cmd h hall
    cases hv : e.validate_command cmd with
    | true => rfl
    | false =>
      obtain ⟨p, hp, hc⟩ := (hb e cmd h).mp hv
      exact absurd hc (hall p hp)
  · intro e task run h
    simp [Executor.execute, h]

/-- C7 witness: a disabled executor rejects a harmless command and fails
execute; an enabled executor rejects the dangerous pattern and accepts a
command that contains rm without the pattern. -/
theorem validate_command_spec_witness :
    exOff.validate_command "echo hi" = false ∧
    exOn.validate_command "rm -rf /" = false ∧
    exOn.validate_command "rm file.txt" = true ∧
    exOff.execute taskSleep runSlow = Except.error "Shell execution is not allowed" :=
  ⟨validate_command_spec.1 exOff "echo hi" rfl,
   (validate_command_spec.2.1 exOn "rm -rf /" rfl).mpr ⟨"rm -rf /", by decide, by decide⟩,
   validate_command_spec.2.2.1 exOn "rm file.txt" rfl (by decide),
   validate_command_spec.2.2.2 exOff taskSleep runSlow rfl⟩

end Octaskly
